import Mathlib

/-!
Shallow embedding of src/source/platform/x64/linux/stream-server.c.

Each C function is modelled as a pure Lean function that returns, besides
its result, the list of observable events (system calls, mutex and
condition-variable operations, queue operations, handler invocations,
allocations and frees) that the corresponding C code performs, in program
order.  Results of system calls are supplied by explicit environment
records, since they come from the operating system.  The concurrent
interaction between the worker pool (thread_pool_handler, lines 64-79)
and the acceptor (stream_server_loop, lines 146-158) is modelled further
below as an executable small-step transition system over interleaved
atomic critical sections.
-/

/-- Observable events of the embedded C code, in program order. -/
inductive Event
  | callSocket (ret : Int)
  | callSetsockopt (ret : Int)
  | callBind (ret : Int)
  | callListen (ret : Int)
  | callAccept (ret : Int)
  | callRead (fd : Int) (count : Nat) (ret : Int)
  | callWrite (fd : Int) (count : Nat)
  | callClose (fd : Int)
  | threadCreate
  | mutexLock
  | mutexUnlock
  | waitRelease
  | waitWake
  | condSignal
  | enqueue (fd : Int)
  | dequeueAttempt (res : Option Int)
  | invoke (handler : Nat) (fd : Int) (ctx : Nat)
  | allocConn (fd : Int)
  | freeConn (fd : Int)
  deriving DecidableEq

/-- Embedding of struct stream_server (line 50).  The pthread handles and
the mutex and condition variable carry no data; the dynamic queue content
is threaded separately as a list of connection fds.  The handler function
pointer and its context are abstract values, modelled as identifiers. -/
structure stream_server where
  thread_pool_size : Nat
  connection_handler : Nat
  connection_handler_context : Nat
  socket_fd : Int
  deriving DecidableEq

/-- Embedding of struct stream_server_connection (line 60): one accepted
stream, holding only the socket descriptor. -/
structure stream_server_connection where
  id : Int
  deriving DecidableEq

/-- Operating-system responses consumed by stream_server_create: whether
the calloc of the server structure succeeds, and the return values of
socket, setsockopt, bind and listen. -/
structure CreateEnv where
  allocServerOk : Bool
  socketRet : Int
  setsockoptRet : Int
  bindRet : Int
  listenRet : Int
  deriving DecidableEq

/-- Outcome of a call that may run CHECK_IF_INVALID (line 42): either the
whole process exits with the given code, or the function returns. -/
inductive CreateResult
  | exited (code : Int)
  | returned (server : Option stream_server)
  deriving DecidableEq

structure CreateOut where
  events : List Event
  result : CreateResult
  deriving DecidableEq

/-- Embedding of stream_server_create (lines 81-118).  The worker threads
are created (lines 95-98) before the socket is set up; any negative
return from socket, setsockopt, bind or listen triggers CHECK_IF_INVALID,
which logs and calls exit(-1) (lines 42-48). -/
def stream_server_create (port : Nat) (max_waiting_connections : Int)
    (thread_pool_size : Nat) (connection_handler : Nat)
    (connection_handler_context : Nat) (env : CreateEnv) : CreateOut :=
  if env.allocServerOk = false then
    { events := [], result := .returned none }
  else
    let ev1 := List.replicate thread_pool_size Event.threadCreate
      ++ [Event.callSocket env.socketRet]
    if env.socketRet < 0 then
      { events := ev1, result := .exited (-1) }
    else
      let ev2 := ev1 ++ [Event.callSetsockopt env.setsockoptRet]
      if env.setsockoptRet < 0 then
        { events := ev2, result := .exited (-1) }
      else
        let ev3 := ev2 ++ [Event.callBind env.bindRet]
        if env.bindRet < 0 then
          { events := ev3, result := .exited (-1) }
        else
          let ev4 := ev3 ++ [Event.callListen env.listenRet]
          if env.listenRet < 0 then
            { events := ev4, result := .exited (-1) }
          else
            { events := ev4,
              result := .returned (some
                { thread_pool_size := thread_pool_size
                  connection_handler := connection_handler
                  connection_handler_context := connection_handler_context
                  socket_fd := env.socketRet }) }

/-- Operating-system response consumed by one stream_server_loop call:
the return value of accept. -/
structure LoopEnv where
  acceptRet : Int
  deriving DecidableEq

inductive LoopResult
  | exited (code : Int)
  | returned
  deriving DecidableEq

structure LoopOut where
  events : List Event
  result : LoopResult
  queue : List Int
  deriving DecidableEq

/-- Embedding of stream_server_loop (lines 146-158): null-server guard,
one blocking accept, CHECK_IF_INVALID on its result, then allocate a
connection, lock, enqueue, signal and unlock. -/
def stream_server_loop (server : Option stream_server) (env : LoopEnv)
    (queue : List Int) : LoopOut :=
  match server with
  | none => { events := [], result := .returned, queue := queue }
  | some _ =>
    if env.acceptRet < 0 then
      { events := [Event.callAccept env.acceptRet],
        result := .exited (-1), queue := queue }
    else
      { events := [Event.callAccept env.acceptRet,
          Event.allocConn env.acceptRet, Event.mutexLock,
          Event.enqueue env.acceptRet, Event.condSignal, Event.mutexUnlock],
        result := .returned,
        queue := queue ++ [env.acceptRet] }

/-- Operating-system response consumed by stream_server_read: the return
value of the read system call. -/
structure ReadEnv where
  readRet : Int
  deriving DecidableEq

/-- Embedding of stream_server_read (lines 120-130).  The data buffer is
modelled only by whether the pointer is null. -/
def stream_server_read (connection : Option stream_server_connection)
    (data : Option Unit) (max_data_size : Nat) (env : ReadEnv) :
    List Event × Nat :=
  if connection.isNone ∨ data.isNone ∨ max_data_size < 1 then
    ([], 0)
  else
    match connection with
    | some conn =>
        let read_bytes := env.readRet
        ([Event.callRead conn.id max_data_size read_bytes],
         if 0 < read_bytes then read_bytes.toNat else 0)
    | none => ([], 0)

/-- Embedding of stream_server_write (lines 132-137): guard, then one
write system call whose result is discarded; the C function returns void,
so the embedding returns only the event trace. -/
def stream_server_write (connection : Option stream_server_connection)
    (data : Option Unit) (data_size : Nat) : List Event :=
  if connection.isNone ∨ data.isNone ∨ data_size < 1 then
    []
  else
    match connection with
    | some conn => [Event.callWrite conn.id data_size]
    | none => []

/-- Embedding of stream_server_close (lines 139-144). -/
def stream_server_close (connection : Option stream_server_connection) :
    List Event :=
  match connection with
  | none => []
  | some conn => [Event.callClose conn.id]

/-- Embedding of dynamic_queue_dequeue on the queue contents: returns the
head if the queue is nonempty. -/
def dynamic_queue_dequeue (queue : List Int) : Option Int × List Int :=
  match queue with
  | [] => (none, [])
  | c :: rest => (some c, rest)

/-- One handler invocation: the caller-supplied callback receives the
server handler identifier, the connection fd and the context value.  If
handlerCloses is set, the handler calls stream_server_close on the
connection before returning; that decision belongs to the handler, not
to the dispatch layer. -/
def handlerInvocation (handler : Nat) (fd : Int) (ctx : Nat)
    (handlerCloses : Bool) : List Event :=
  [Event.invoke handler fd ctx]
    ++ (if handlerCloses then [Event.callClose fd] else [])

structure IterResult where
  events : List Event
  queue : List Int
  openFds : List Int
  deriving DecidableEq

/-- One iteration of the while loop of thread_pool_handler (lines 66-78):
lock; dequeue; if empty, cond_wait and dequeue again; unlock; if a
connection was obtained, invoke the handler and free the connection
structure.  The arrivals argument lists the fds the acceptor enqueues
while this worker is blocked inside pthread_cond_wait, the only window
of the iteration in which the mutex is released without leaving the loop
body.  openFds tracks which socket descriptors are open: the loop body
itself never closes one; only the handler may (via handlerCloses). -/
def thread_pool_iteration (handler ctx : Nat) (handlerCloses : Bool)
    (queue arrivals openFds : List Int) : IterResult :=
  let step1 := dynamic_queue_dequeue queue
  match step1.1 with
  | some c =>
      { events := [Event.mutexLock, Event.dequeueAttempt (some c),
          Event.mutexUnlock]
          ++ handlerInvocation handler c ctx handlerCloses
          ++ [Event.freeConn c],
        queue := step1.2,
        openFds := if handlerCloses then openFds.filter (fun f => f != c)
                   else openFds }
  | none =>
      let step2 := dynamic_queue_dequeue (step1.2 ++ arrivals)
      match step2.1 with
      | some c =>
          { events := [Event.mutexLock, Event.dequeueAttempt none,
              Event.waitRelease, Event.waitWake,
              Event.dequeueAttempt (some c), Event.mutexUnlock]
              ++ handlerInvocation handler c ctx handlerCloses
              ++ [Event.freeConn c],
            queue := step2.2,
            openFds := if handlerCloses then openFds.filter (fun f => f != c)
                       else openFds }
      | none =>
          { events := [Event.mutexLock, Event.dequeueAttempt none,
              Event.waitRelease, Event.waitWake, Event.dequeueAttempt none,
              Event.mutexUnlock],
            queue := step2.2, openFds := openFds }

/-- The worker loop body exactly as the specification words it, section
4.2: acquire the mutex; attempt one dequeue; if the queue was empty, wait
once on the condition variable (mutex released while waiting, reacquired
on wake) and attempt dequeue once more; release the mutex; only if a
connection was obtained, invoke the handler synchronously and then
release the resources of the connection. -/
def worker_body_spec_events (handler ctx : Nat) (handlerCloses : Bool)
    (queue arrivals : List Int) : List Event :=
  let first := queue.head?
  let obtained := match queue with
    | c :: _ => some c
    | [] => arrivals.head?
  [Event.mutexLock, Event.dequeueAttempt first]
    ++ (if first.isNone then
          [Event.waitRelease, Event.waitWake,
           Event.dequeueAttempt arrivals.head?]
        else [])
    ++ [Event.mutexUnlock]
    ++ (match obtained with
        | some c => handlerInvocation handler c ctx handlerCloses
            ++ [Event.freeConn c]
        | none => [])

/-- Event classifier used to count accept system calls. -/
def isAccept : Event → Bool
  | .callAccept _ => true
  | _ => false

/-- Position of a worker thread inside the while loop of
thread_pool_handler.  idle: about to lock and make the first dequeue
attempt; waiting: blocked in pthread_cond_wait; woken: signalled or
spuriously woken, about to reacquire the mutex and dequeue again;
handling: between mutex release and the return of the handler for the
dequeued connection. -/
inductive WStatus
  | idle
  | waiting
  | woken
  | handling (conn : Nat)
  deriving DecidableEq

/-- Interleaving choices.  accept is one successful stream_server_loop
critical section (enqueue then pthread_cond_signal, lines 154-157); its
argument names the waiting worker the signal wakes, or none when no
worker is waiting and the signal is lost.  workerDeq is the lock plus
first dequeue attempt of worker i (lines 67-70): on an empty queue the
worker enters pthread_cond_wait.  workerRedeq is the dequeue attempt
after the wait returns (line 71) followed by the unlock.  spurious is a
spurious wakeup of a waiting worker, which POSIX permits.  finish is the
handler invocation returning and the connection being freed
(lines 74-77). -/
inductive SAction
  | accept (wake : Option Nat)
  | workerDeq (i : Nat)
  | workerRedeq (i : Nat)
  | spurious (i : Nat)
  | finish (i : Nat)
  deriving DecidableEq

/-- Global state: the queue contents, the position of each worker, how many
connections have been accepted so far, the connections in dequeue order,
and the handler invocations as (worker, connection) pairs in completion
order. -/
structure SState where
  queue : List Nat
  workers : List WStatus
  accepted : Nat
  deqLog : List Nat
  dispLog : List (Nat × Nat)
  deriving DecidableEq

/-- One atomic step of the interleaved system; none when the chosen
action is not enabled in the given state. -/
def step (s : SState) (a : SAction) : Option SState :=
  match a with
  | .accept w =>
    match w with
    | some i =>
      match s.workers[i]? with
      | some .waiting =>
          some { s with
                 queue := s.queue ++ [s.accepted]
                 workers := s.workers.set i .woken
                 accepted := s.accepted + 1 }
      | _ => none
    | none =>
      if ∀ st ∈ s.workers, st ≠ WStatus.waiting then
        some { s with
               queue := s.queue ++ [s.accepted]
               accepted := s.accepted + 1 }
      else none
  | .workerDeq i =>
    match s.workers[i]? with
    | some .idle =>
      match s.queue with
      | [] => some { s with workers := s.workers.set i .waiting }
      | c :: rest =>
          some { s with
                 queue := rest
                 workers := s.workers.set i (.handling c)
                 deqLog := s.deqLog ++ [c] }
    | _ => none
  | .workerRedeq i =>
    match s.workers[i]? with
    | some .woken =>
      match s.queue with
      | [] => some { s with workers := s.workers.set i .idle }
      | c :: rest =>
          some { s with
                 queue := rest
                 workers := s.workers.set i (.handling c)
                 deqLog := s.deqLog ++ [c] }
    | _ => none
  | .spurious i =>
    match s.workers[i]? with
    | some .waiting => some { s with workers := s.workers.set i .woken }
    | _ => none
  | .finish i =>
    match s.workers[i]? with
    | some (.handling c) =>
        some { s with
               workers := s.workers.set i .idle
               dispLog := s.dispLog ++ [(i, c)] }
    | _ => none

/-- State after stream_server_create started n workers and nothing has
been accepted yet. -/
def initState (n : Nat) : SState :=
  { queue := [], workers := List.replicate n WStatus.idle, accepted := 0,
    deqLog := [], dispLog := [] }

/-- Run a list of interleaving choices from a state; none as soon as a
choice is not enabled. -/
def run : SState → List SAction → Option SState
  | s, [] => some s
  | s, a :: as =>
    match step s a with
    | none => none
    | some s1 => run s1 as

/-- The connection a worker currently holds, if any. -/
def toHandling : WStatus → Option Nat
  | .handling c => some c
  | _ => none

/-- Connections currently held by some worker (dequeued, handler not yet
returned). -/
def handlingList (ws : List WStatus) : List Nat := ws.filterMap toHandling

/-- The two queue invariants of the system: the dequeue log followed by
the queue contents is exactly the acceptance sequence, and the dispatch
log together with the connections held by workers accounts for every
dequeued connection exactly once. -/
def SInv (s : SState) : Prop :=
  s.deqLog ++ s.queue = List.range s.accepted ∧
  ∀ x : Nat, (s.dispLog.map Prod.snd).count x
      + (handlingList s.workers).count x = s.deqLog.count x

/-- Remaining work measure used to build a completing schedule. -/
def drainMeasure (s : SState) : Nat :=
  2 * s.queue.length + (handlingList s.workers).length

/-- Dispatch order exactly as claim C4 words it: connections are handed
to handlers in acceptance order. -/
def dispatchIsFIFO (s : SState) : Prop :=
    (s.dispLog.map Prod.snd).Pairwise (· < ·)

/-- Reduction of stream_server_read when all guards pass. -/
lemma stream_server_read_some (conn : stream_server_connection)
    (max_data_size : Nat) (env : ReadEnv) (h : 1 ≤ max_data_size) :
    stream_server_read (some conn) (some ()) max_data_size env
      = ([Event.callRead conn.id max_data_size env.readRet],
         if 0 < env.readRet then env.readRet.toNat else 0) := by
  unfold stream_server_read
  rw [if_neg]
  intro hc
  rcases hc with hc | hc | hc
  · simp at hc
  · simp at hc
  · omega

/-- Reduction of stream_server_write when all guards pass. -/
lemma stream_server_write_some (conn : stream_server_connection)
    (data_size : Nat) (h : 1 ≤ data_size) :
    stream_server_write (some conn) (some ()) data_size
      = [Event.callWrite conn.id data_size] := by
  unfold stream_server_write
  rw [if_neg]
  intro hc
  rcases hc with hc | hc | hc
  · simp at hc
  · simp at hc
  · omega

/-- Claim C2: every worker-loop iteration performs exactly the steps of
section 4.2 in order: lock, one dequeue attempt, a single wait with a
second dequeue attempt when the queue was empty, unlock, and handler
invocation followed by freeing the connection only when a connection was
obtained. -/
theorem c2_worker_loop_body_steps (handler ctx : Nat) (handlerCloses : Bool)
    (queue arrivals openFds : List Int) :
    (thread_pool_iteration handler ctx handlerCloses queue arrivals openFds).events
      = worker_body_spec_events handler ctx handlerCloses queue arrivals := by
  cases queue <;> cases arrivals <;>
    simp [thread_pool_iteration, worker_body_spec_events,
      dynamic_queue_dequeue, handlerInvocation]

/-- Claim C3: one invocation of stream_server_loop performs exactly one
blocking accept and, on success, constructs one connection handle, locks
the mutex, enqueues the handle, signals once and unlocks, in that order;
it does not loop internally. -/
theorem c3_accept_once (server : stream_server) (env : LoopEnv)
    (queue : List Int) :
    (stream_server_loop (some server) env queue).events.countP isAccept = 1 ∧
    (0 ≤ env.acceptRet →
      stream_server_loop (some server) env queue =
        { events := [Event.callAccept env.acceptRet,
            Event.allocConn env.acceptRet, Event.mutexLock,
            Event.enqueue env.acceptRet, Event.condSignal,
            Event.mutexUnlock],
          result := .returned,
          queue := queue ++ [env.acceptRet] }) := by
  constructor
  · by_cases h : env.acceptRet < 0 <;>
      simp [stream_server_loop, h, isAccept]
  · intro h
    have h2 : ¬ env.acceptRet < 0 := not_lt.mpr h
    simp [stream_server_loop, h2]

/-- Claim C3 witness at a concrete successful accept. -/
theorem c3_accept_once_witness :
    (stream_server_loop
        (some { thread_pool_size := 2, connection_handler := 0,
                connection_handler_context := 0, socket_fd := 3 })
        { acceptRet := 7 } []).events.countP isAccept = 1 ∧
    stream_server_loop
        (some { thread_pool_size := 2, connection_handler := 0,
                connection_handler_context := 0, socket_fd := 3 })
        { acceptRet := 7 } [] =
      { events := [Event.callAccept 7, Event.allocConn 7, Event.mutexLock,
          Event.enqueue 7, Event.condSignal, Event.mutexUnlock],
        result := .returned, queue := [7] } := by
  have h := c3_accept_once
    { thread_pool_size := 2, connection_handler := 0,
      connection_handler_context := 0, socket_fd := 3 }
    { acceptRet := 7 } []
  exact ⟨h.1, h.2 (by decide)⟩

/-- Claim C6: stream_server_read returns 0 with no I/O call when the
connection or buffer is null or the size is below 1; otherwise it
performs a single bounded receive and returns 0 on peer close or error,
and the number of bytes actually received when the receive succeeds. -/
theorem c6_read_contract (connection : Option stream_server_connection)
    (data : Option Unit) (max_data_size : Nat) (env : ReadEnv) :
    ((connection.isNone ∨ data.isNone ∨ max_data_size < 1) →
      stream_server_read connection data max_data_size env = ([], 0)) ∧
    (∀ conn : stream_server_connection, connection = some conn →
      data = some () → 1 ≤ max_data_size →
      (stream_server_read connection data max_data_size env).1
          = [Event.callRead conn.id max_data_size env.readRet] ∧
      (env.readRet ≤ 0 →
        (stream_server_read connection data max_data_size env).2 = 0) ∧
      (0 < env.readRet →
        (stream_server_read connection data max_data_size env).2
          = env.readRet.toNat)) := by
  constructor
  · intro h
    rcases h with h | h | h
    · have hc : connection = none := Option.isNone_iff_eq_none.mp h
      subst hc
      simp [stream_server_read]
    · have hd : data = none := Option.isNone_iff_eq_none.mp h
      subst hd
      simp [stream_server_read]
    · have h0 : max_data_size = 0 := Nat.lt_one_iff.mp h
      subst h0
      simp [stream_server_read]
  · intro conn hc hd hs
    subst hc
    subst hd
    rw [stream_server_read_some conn max_data_size env hs]
    refine ⟨rfl, ?_, ?_⟩
    · intro hle
      have h2 : ¬ (0 < env.readRet) := not_lt.mpr hle
      simp [h2]
    · intro hlt
      simp [hlt]

/-- Claim C6 witness: a null-buffer call returns 0 with no I/O event, and
a successful 5-byte receive on a 16-byte request returns 5. -/
theorem c6_read_contract_witness :
    stream_server_read (some { id := 4 }) none 16 { readRet := 5 } = ([], 0) ∧
    (stream_server_read (some { id := 4 }) (some ()) 16 { readRet := 5 }).1
        = [Event.callRead 4 16 5] ∧
    (stream_server_read (some { id := 4 }) (some ()) 16 { readRet := 5 }).2
        = 5 := by
  refine ⟨?_, ?_, ?_⟩
  · exact (c6_read_contract (some { id := 4 }) none 16 { readRet := 5 }).1
      (by simp)
  · exact ((c6_read_contract (some { id := 4 }) (some ()) 16
      { readRet := 5 }).2 { id := 4 } rfl rfl (by decide)).1
  · exact ((c6_read_contract (some { id := 4 }) (some ()) 16
      { readRet := 5 }).2 { id := 4 } rfl rfl (by decide)).2.2 (by decide)

/-- Claim C7: stream_server_write with a null connection, a null buffer
or size below 1 performs no I/O call; otherwise it performs exactly one
bounded send with no retry.  The C function returns void, which the
embedding mirrors by returning only the event trace: no error code can
flow back, so failures are dropped silently. -/
theorem c7_write_contract (connection : Option stream_server_connection)
    (data : Option Unit) (data_size : Nat) :
    ((connection.isNone ∨ data.isNone ∨ data_size < 1) →
      stream_server_write connection data data_size = []) ∧
    (∀ conn : stream_server_connection, connection = some conn →
      data = some () → 1 ≤ data_size →
      stream_server_write connection data data_size
        = [Event.callWrite conn.id data_size]) := by
  constructor
  · intro h
    rcases h with h | h | h
    · have hc : connection = none := Option.isNone_iff_eq_none.mp h
      subst hc
      simp [stream_server_write]
    · have hd : data = none := Option.isNone_iff_eq_none.mp h
      subst hd
      simp [stream_server_write]
    · have h0 : data_size = 0 := Nat.lt_one_iff.mp h
      subst h0
      simp [stream_server_write]
  · intro conn hc hd hs
    subst hc
    subst hd
    exact stream_server_write_some conn data_size hs

/-- Claim C7 witness: a zero-size call is a no-op and a valid call emits
exactly one send. -/
theorem c7_write_contract_witness :
    stream_server_write (some { id := 4 }) (some ()) 0 = [] ∧
    stream_server_write (some { id := 4 }) (some ()) 8
      = [Event.callWrite 4 8] := by
  refine ⟨?_, ?_⟩
  · exact (c7_write_contract (some { id := 4 }) (some ()) 0).1 (by simp)
  · exact (c7_write_contract (some { id := 4 }) (some ()) 8).2
      { id := 4 } rfl rfl (by decide)

/-- Claim C10: stream_server_loop called with a null server returns
immediately: no accept, no allocation, no enqueue, no signal, and no
process termination. -/
theorem c10_null_server_noop (env : LoopEnv) (queue : List Int) :
    stream_server_loop none env queue
      = { events := [], result := .returned, queue := queue } := rfl

/-- Claim C8: with a handler that does not close the connection, the
loop body of the dispatch layer frees only the connection structure after the
handler returns: it emits no close call, leaves the set of open socket
descriptors unchanged, and does free the dequeued connection. -/
theorem c8_dispatch_frees_memory_only (handler ctx : Nat)
    (queue arrivals openFds : List Int) :
    (thread_pool_iteration handler ctx false queue arrivals openFds).openFds
        = openFds ∧
    (∀ fd : Int, Event.callClose fd ∉
      (thread_pool_iteration handler ctx false queue arrivals openFds).events) ∧
    (∀ c rest, queue = c :: rest →
      Event.freeConn c ∈
        (thread_pool_iteration handler ctx false queue arrivals openFds).events) := by
  refine ⟨?_, ?_, ?_⟩
  · cases queue <;> cases arrivals <;>
      simp [thread_pool_iteration, dynamic_queue_dequeue, handlerInvocation]
  · intro fd
    cases queue <;> cases arrivals <;>
      simp [thread_pool_iteration, dynamic_queue_dequeue, handlerInvocation]
  · intro c rest h
    subst h
    simp [thread_pool_iteration, dynamic_queue_dequeue, handlerInvocation]

/-- Claim C8 witness: a worker servicing connection 5 with a handler that
does not close leaves fd 5 open, closes nothing, and frees the handle. -/
theorem c8_dispatch_frees_memory_only_witness :
    (thread_pool_iteration 0 0 false [5] [] [5]).openFds = [5] ∧
    (Event.callClose 5 ∉ (thread_pool_iteration 0 0 false [5] [] [5]).events) ∧
    Event.freeConn 5 ∈ (thread_pool_iteration 0 0 false [5] [] [5]).events := by
  have h := c8_dispatch_frees_memory_only 0 0 [5] [] [5]
  exact ⟨h.1, h.2.1 5, h.2.2 5 [] rfl⟩

/-- Case analysis of stream_server_create over its environment: the run
either stops at the failed allocation, exits at the first failing system
call, or returns the fully initialized server. -/
lemma create_branches (port : Nat) (mwc : Int) (tps h c : Nat)
    (env : CreateEnv) :
    (env.allocServerOk = false ∧
      stream_server_create port mwc tps h c env
        = { events := [], result := .returned none }) ∨
    (env.allocServerOk = true ∧ env.socketRet < 0 ∧
      stream_server_create port mwc tps h c env
        = { events := List.replicate tps Event.threadCreate
              ++ [Event.callSocket env.socketRet],
            result := .exited (-1) }) ∨
    (env.allocServerOk = true ∧ 0 ≤ env.socketRet ∧ env.setsockoptRet < 0 ∧
      stream_server_create port mwc tps h c env
        = { events := List.replicate tps Event.threadCreate
              ++ [Event.callSocket env.socketRet,
                  Event.callSetsockopt env.setsockoptRet],
            result := .exited (-1) }) ∨
    (env.allocServerOk = true ∧ 0 ≤ env.socketRet ∧ 0 ≤ env.setsockoptRet ∧
      env.bindRet < 0 ∧
      stream_server_create port mwc tps h c env
        = { events := List.replicate tps Event.threadCreate
              ++ [Event.callSocket env.socketRet,
                  Event.callSetsockopt env.setsockoptRet,
                  Event.callBind env.bindRet],
            result := .exited (-1) }) ∨
    (env.allocServerOk = true ∧ 0 ≤ env.socketRet ∧ 0 ≤ env.setsockoptRet ∧
      0 ≤ env.bindRet ∧ env.listenRet < 0 ∧
      stream_server_create port mwc tps h c env
        = { events := List.replicate tps Event.threadCreate
              ++ [Event.callSocket env.socketRet,
                  Event.callSetsockopt env.setsockoptRet,
                  Event.callBind env.bindRet,
                  Event.callListen env.listenRet],
            result := .exited (-1) }) ∨
    (env.allocServerOk = true ∧ 0 ≤ env.socketRet ∧ 0 ≤ env.setsockoptRet ∧
      0 ≤ env.bindRet ∧ 0 ≤ env.listenRet ∧
      stream_server_create port mwc tps h c env
        = { events := List.replicate tps Event.threadCreate
              ++ [Event.callSocket env.socketRet,
                  Event.callSetsockopt env.setsockoptRet,
                  Event.callBind env.bindRet,
                  Event.callListen env.listenRet],
            result := .returned (some
              { thread_pool_size := tps, connection_handler := h,
                connection_handler_context := c,
                socket_fd := env.socketRet }) }) := by
  by_cases h0 : env.allocServerOk = false
  · exact Or.inl ⟨h0, by simp [stream_server_create, h0]⟩
  · have h0t : env.allocServerOk = true := by
      cases henv : env.allocServerOk
      · exact absurd henv h0
      · rfl
    by_cases h1 : env.socketRet < 0
    · refine Or.inr (Or.inl ⟨h0t, h1, ?_⟩)
      simp [stream_server_create, h0t, h1]
    · have h1n : 0 ≤ env.socketRet := not_lt.mp h1
      by_cases h2 : env.setsockoptRet < 0
      · refine Or.inr (Or.inr (Or.inl ⟨h0t, h1n, h2, ?_⟩))
        simp [stream_server_create, h0t, h1, h2]
      · have h2n : 0 ≤ env.setsockoptRet := not_lt.mp h2
        by_cases h3 : env.bindRet < 0
        · refine Or.inr (Or.inr (Or.inr (Or.inl ⟨h0t, h1n, h2n, h3, ?_⟩)))
          simp [stream_server_create, h0t, h1, h2, h3]
        · have h3n : 0 ≤ env.bindRet := not_lt.mp h3
          by_cases h4 : env.listenRet < 0
          · refine Or.inr (Or.inr (Or.inr (Or.inr (Or.inl
              ⟨h0t, h1n, h2n, h3n, h4, ?_⟩))))
            simp [stream_server_create, h0t, h1, h2, h3, h4]
          · have h4n : 0 ≤ env.listenRet := not_lt.mp h4
            refine Or.inr (Or.inr (Or.inr (Or.inr (Or.inr
              ⟨h0t, h1n, h2n, h3n, h4n, ?_⟩))))
            simp [stream_server_create, h0t, h1, h2, h3, h4]

/-- Claim C5: a negative return from socket, setsockopt, bind or listen
inside stream_server_create, or from accept inside stream_server_loop,
makes the process exit with code -1, with no cleanup (no close call in
the trace) and no error value returned to the caller; and when all four
setup calls are performed and succeed, stream_server_create returns a
non-null server handle. -/
theorem c5_fatal_error_policy (port : Nat) (mwc : Int) (tps hdl cx : Nat)
    (cenv : CreateEnv) (server : stream_server) (lenv : LoopEnv)
    (q : List Int) :
    ((∃ r : Int, r < 0 ∧
        (Event.callSocket r
            ∈ (stream_server_create port mwc tps hdl cx cenv).events ∨
         Event.callSetsockopt r
            ∈ (stream_server_create port mwc tps hdl cx cenv).events ∨
         Event.callBind r
            ∈ (stream_server_create port mwc tps hdl cx cenv).events ∨
         Event.callListen r
            ∈ (stream_server_create port mwc tps hdl cx cenv).events)) →
      (stream_server_create port mwc tps hdl cx cenv).result = .exited (-1) ∧
      (∀ fd : Int, Event.callClose fd
          ∉ (stream_server_create port mwc tps hdl cx cenv).events)) ∧
    (((∃ r : Int, 0 ≤ r ∧ Event.callSocket r
          ∈ (stream_server_create port mwc tps hdl cx cenv).events) ∧
      (∃ r : Int, 0 ≤ r ∧ Event.callSetsockopt r
          ∈ (stream_server_create port mwc tps hdl cx cenv).events) ∧
      (∃ r : Int, 0 ≤ r ∧ Event.callBind r
          ∈ (stream_server_create port mwc tps hdl cx cenv).events) ∧
      (∃ r : Int, 0 ≤ r ∧ Event.callListen r
          ∈ (stream_server_create port mwc tps hdl cx cenv).events)) →
      ∃ srv : stream_server,
        (stream_server_create port mwc tps hdl cx cenv).result
          = .returned (some srv)) ∧
    ((∃ r : Int, r < 0 ∧ Event.callAccept r
        ∈ (stream_server_loop (some server) lenv q).events) →
      (stream_server_loop (some server) lenv q).result = .exited (-1)) := by
  refine ⟨?_, ?_, ?_⟩
  · intro hmem
    rcases create_branches port mwc tps hdl cx cenv with
      ⟨ha, hcr⟩ | ⟨ha, h1, hcr⟩ | ⟨ha, h1, h2, hcr⟩ |
      ⟨ha, h1, h2, h3, hcr⟩ | ⟨ha, h1, h2, h3, h4, hcr⟩ |
      ⟨ha, h1, h2, h3, h4, hcr⟩ <;>
      rw [hcr] at hmem ⊢ <;>
      obtain ⟨r, hr, hm⟩ := hmem
    · simp at hm
    · refine ⟨rfl, ?_⟩
      intro fd
      simp [List.mem_replicate]
    · refine ⟨rfl, ?_⟩
      intro fd
      simp [List.mem_replicate]
    · refine ⟨rfl, ?_⟩
      intro fd
      simp [List.mem_replicate]
    · refine ⟨rfl, ?_⟩
      intro fd
      simp [List.mem_replicate]
    · exfalso
      simp [List.mem_replicate] at hm
      rcases hm with hm | hm | hm | hm <;> subst hm <;> omega
  · intro hmem
    rcases create_branches port mwc tps hdl cx cenv with
      ⟨ha, hcr⟩ | ⟨ha, h1, hcr⟩ | ⟨ha, h1, h2, hcr⟩ |
      ⟨ha, h1, h2, h3, hcr⟩ | ⟨ha, h1, h2, h3, h4, hcr⟩ |
      ⟨ha, h1, h2, h3, h4, hcr⟩ <;>
      rw [hcr] at hmem ⊢ <;>
      obtain ⟨⟨r1, hr1, hm1⟩, ⟨r2, hr2, hm2⟩, ⟨r3, hr3, hm3⟩,
        ⟨r4, hr4, hm4⟩⟩ := hmem
    · simp at hm1
    · exfalso
      simp [List.mem_replicate] at hm4
    · exfalso
      simp [List.mem_replicate] at hm4
    · exfalso
      simp [List.mem_replicate] at hm4
    · exfalso
      simp [List.mem_replicate] at hm4
      subst hm4
      omega
    · exact ⟨_, rfl⟩
  · intro hmem
    by_cases hacc : lenv.acceptRet < 0
    · simp [stream_server_loop, hacc]
    · exfalso
      obtain ⟨r, hr, hm⟩ := hmem
      simp [stream_server_loop, hacc] at hm
      subst hm
      omega

/-- Claim C5 witness: with a failing bind the create run exits with -1
and performs no close; with all calls succeeding it returns a server;
with a failing accept the loop run exits with -1. -/
theorem c5_fatal_error_policy_witness :
    (stream_server_create 80 5 2 0 0
        { allocServerOk := true, socketRet := 3, setsockoptRet := 0,
          bindRet := -1, listenRet := 0 }).result = .exited (-1) ∧
    (∃ srv : stream_server,
      (stream_server_create 80 5 2 0 0
          { allocServerOk := true, socketRet := 3, setsockoptRet := 0,
            bindRet := 0, listenRet := 0 }).result = .returned (some srv)) ∧
    (stream_server_loop
        (some { thread_pool_size := 2, connection_handler := 0,
                connection_handler_context := 0, socket_fd := 3 })
        { acceptRet := -1 } []).result = .exited (-1) := by
  refine ⟨?_, ?_, ?_⟩
  · exact ((c5_fatal_error_policy 80 5 2 0 0
      { allocServerOk := true, socketRet := 3, setsockoptRet := 0,
        bindRet := -1, listenRet := 0 }
      { thread_pool_size := 2, connection_handler := 0,
        connection_handler_context := 0, socket_fd := 3 }
      { acceptRet := -1 } []).1
      ⟨-1, by decide, by right; right; left; decide⟩).1
  · exact (c5_fatal_error_policy 80 5 2 0 0
      { allocServerOk := true, socketRet := 3, setsockoptRet := 0,
        bindRet := 0, listenRet := 0 }
      { thread_pool_size := 2, connection_handler := 0,
        connection_handler_context := 0, socket_fd := 3 }
      { acceptRet := -1 } []).2.1
      ⟨⟨3, by decide, by decide⟩, ⟨0, by decide, by decide⟩,
       ⟨0, by decide, by decide⟩, ⟨0, by decide, by decide⟩⟩
  · exact (c5_fatal_error_policy 80 5 2 0 0
      { allocServerOk := true, socketRet := 3, setsockoptRet := 0,
        bindRet := 0, listenRet := 0 }
      { thread_pool_size := 2, connection_handler := 0,
        connection_handler_context := 0, socket_fd := 3 }
      { acceptRet := -1 } []).2.2
      ⟨-1, by decide, by decide⟩

/-!
Small-step transition system for the concurrent interaction of the
worker pool (thread_pool_handler, lines 64-79) with the acceptor
(stream_server_loop, lines 154-157).  Every shared-state access of the C
code happens with the mutex held, so each critical section is one atomic
step; pthread_cond_wait, which atomically releases the mutex and blocks,
splits the worker loop body into the sections before and after the wait.
Connections are numbered by acceptance order, so connection m is the
m-th one accepted.
-/

lemma handlingList_append (xs ys : List WStatus) :
    handlingList (xs ++ ys) = handlingList xs ++ handlingList ys := by
  simp [handlingList]

lemma handlingList_replicate_idle (n : Nat) :
    handlingList (List.replicate n WStatus.idle) = [] := by
  induction n with
  | zero => rfl
  | succ k ih => simp [List.replicate_succ, handlingList, toHandling, ih]

lemma getElem?_decomp (ws : List WStatus) (i : Nat) (w : WStatus)
    (h : ws[i]? = some w) :
    ∃ pre post, ws = pre ++ w :: post ∧ pre.length = i := by
  induction ws generalizing i with
  | nil => simp at h
  | cons a t ih =>
    cases i with
    | zero =>
      simp at h
      exact ⟨[], t, by simp [h], rfl⟩
    | succ n =>
      simp at h
      obtain ⟨pre, post, h1, h2⟩ := ih n h
      exact ⟨a :: pre, post, by simp [h1], by simp [h2]⟩

lemma set_append_cons (pre : List WStatus) (w : WStatus)
    (post : List WStatus) (v : WStatus) :
    (pre ++ w :: post).set pre.length v = pre ++ v :: post := by
  induction pre with
  | nil => rfl
  | cons a t ih => simp [List.set, ih]

lemma getElem?_append_cons (pre : List WStatus) (w : WStatus)
    (post : List WStatus) :
    (pre ++ w :: post)[pre.length]? = some w := by
  induction pre with
  | nil => simp
  | cons a t ih => simpa using ih

lemma exists_handling (ws : List WStatus)
    (h : handlingList ws ≠ []) :
    ∃ pre c post, ws = pre ++ WStatus.handling c :: post := by
  induction ws with
  | nil => simp [handlingList] at h
  | cons a t ih =>
    cases a with
    | handling c => exact ⟨[], c, t, rfl⟩
    | idle =>
      have h2 : handlingList t ≠ [] := by
        simpa [handlingList, toHandling] using h
      obtain ⟨pre, c, post, hp⟩ := ih h2
      exact ⟨WStatus.idle :: pre, c, post, by simp [hp]⟩
    | waiting =>
      have h2 : handlingList t ≠ [] := by
        simpa [handlingList, toHandling] using h
      obtain ⟨pre, c, post, hp⟩ := ih h2
      exact ⟨WStatus.waiting :: pre, c, post, by simp [hp]⟩
    | woken =>
      have h2 : handlingList t ≠ [] := by
        simpa [handlingList, toHandling] using h
      obtain ⟨pre, c, post, hp⟩ := ih h2
      exact ⟨WStatus.woken :: pre, c, post, by simp [hp]⟩

lemma set_decomp (ws : List WStatus) (i : Nat) (w : WStatus)
    (hget : ws[i]? = some w) (v : WStatus) :
    ∃ pre post, ws = pre ++ [w] ++ post ∧ ws.set i v = pre ++ [v] ++ post := by
  obtain ⟨pre, post, hws, hlen⟩ := getElem?_decomp ws i w hget
  refine ⟨pre, post, by simp [hws], ?_⟩
  rw [hws, ← hlen, set_append_cons]
  simp

lemma handlingList_idle : handlingList [WStatus.idle] = [] := rfl

lemma handlingList_waiting : handlingList [WStatus.waiting] = [] := rfl

lemma handlingList_woken : handlingList [WStatus.woken] = [] := rfl

lemma handlingList_handling (c : Nat) :
    handlingList [WStatus.handling c] = [c] := rfl

/-- Every enabled step preserves the two queue invariants. -/
lemma step_SInv (s : SState) (a : SAction) (s1 : SState)
    (hstep : step s a = some s1) (hinv : SInv s) : SInv s1 := by
  obtain ⟨hq, hc⟩ := hinv
  cases a with
  | accept w =>
    cases w with
    | some i =>
      cases hw : s.workers[i]? with
      | none => simp [step, hw] at hstep
      | some st =>
        cases st with
        | waiting =>
          simp [step, hw] at hstep
          subst hstep
          obtain ⟨pre, post, hws, hset⟩ :=
            set_decomp s.workers i WStatus.waiting hw WStatus.woken
          refine ⟨?_, ?_⟩
          · simp only [← List.append_assoc, hq, List.range_succ]
          · intro x
            have hx := hc x
            rw [hws] at hx
            simp only [hset, handlingList_append, List.count_append, List.count_nil,
              handlingList_waiting, handlingList_woken] at hx ⊢
            omega
        | idle => simp [step, hw] at hstep
        | woken => simp [step, hw] at hstep
        | handling c => simp [step, hw] at hstep
    | none =>
      by_cases hall : ∀ st ∈ s.workers, st ≠ WStatus.waiting
      · simp [step, hall] at hstep
        obtain ⟨-, hstep⟩ := hstep
        subst hstep
        refine ⟨?_, ?_⟩
        · simp only [← List.append_assoc, hq, List.range_succ]
        · exact hc
      · simp [step, hall] at hstep
  | workerDeq i =>
    cases hw : s.workers[i]? with
    | none => simp [step, hw] at hstep
    | some st =>
      cases st with
      | idle =>
        cases hqu : s.queue with
        | nil =>
          simp [step, hw, hqu] at hstep
          subst hstep
          obtain ⟨pre, post, hws, hset⟩ :=
            set_decomp s.workers i WStatus.idle hw WStatus.waiting
          refine ⟨?_, ?_⟩
          · rw [hqu] at hq
            simpa using hq
          · intro x
            have hx := hc x
            rw [hws] at hx
            simp only [hset, handlingList_append, List.count_append, List.count_nil,
              handlingList_idle, handlingList_waiting] at hx ⊢
            omega
        | cons c rest =>
          simp [step, hw, hqu] at hstep
          subst hstep
          obtain ⟨pre, post, hws, hset⟩ :=
            set_decomp s.workers i WStatus.idle hw (WStatus.handling c)
          refine ⟨?_, ?_⟩
          · rw [hqu] at hq
            simp [← hq]
          · intro x
            have hx := hc x
            rw [hws] at hx
            simp only [hset, handlingList_append, List.count_append, List.count_nil,
              handlingList_idle, handlingList_handling] at hx ⊢
            omega
      | waiting => simp [step, hw] at hstep
      | woken => simp [step, hw] at hstep
      | handling c => simp [step, hw] at hstep
  | workerRedeq i =>
    cases hw : s.workers[i]? with
    | none => simp [step, hw] at hstep
    | some st =>
      cases st with
      | woken =>
        cases hqu : s.queue with
        | nil =>
          simp [step, hw, hqu] at hstep
          subst hstep
          obtain ⟨pre, post, hws, hset⟩ :=
            set_decomp s.workers i WStatus.woken hw WStatus.idle
          refine ⟨?_, ?_⟩
          · rw [hqu] at hq
            simpa using hq
          · intro x
            have hx := hc x
            rw [hws] at hx
            simp only [hset, handlingList_append, List.count_append, List.count_nil,
              handlingList_idle, handlingList_woken] at hx ⊢
            omega
        | cons c rest =>
          simp [step, hw, hqu] at hstep
          subst hstep
          obtain ⟨pre, post, hws, hset⟩ :=
            set_decomp s.workers i WStatus.woken hw (WStatus.handling c)
          refine ⟨?_, ?_⟩
          · rw [hqu] at hq
            simp [← hq]
          · intro x
            have hx := hc x
            rw [hws] at hx
            simp only [hset, handlingList_append, List.count_append, List.count_nil,
              handlingList_woken, handlingList_handling] at hx ⊢
            omega
      | idle => simp [step, hw] at hstep
      | waiting => simp [step, hw] at hstep
      | handling c => simp [step, hw] at hstep
  | spurious i =>
    cases hw : s.workers[i]? with
    | none => simp [step, hw] at hstep
    | some st =>
      cases st with
      | waiting =>
        simp [step, hw] at hstep
        subst hstep
        obtain ⟨pre, post, hws, hset⟩ :=
          set_decomp s.workers i WStatus.waiting hw WStatus.woken
        refine ⟨hq, ?_⟩
        intro x
        have hx := hc x
        rw [hws] at hx
        simp only [hset, handlingList_append, List.count_append, List.count_nil,
          handlingList_waiting, handlingList_woken] at hx ⊢
        omega
      | idle => simp [step, hw] at hstep
      | woken => simp [step, hw] at hstep
      | handling c => simp [step, hw] at hstep
  | finish i =>
    cases hw : s.workers[i]? with
    | none => simp [step, hw] at hstep
    | some st =>
      cases st with
      | handling c =>
        simp [step, hw] at hstep
        subst hstep
        obtain ⟨pre, post, hws, hset⟩ :=
          set_decomp s.workers i (WStatus.handling c) hw WStatus.idle
        refine ⟨hq, ?_⟩
        intro x
        have hx := hc x
        rw [hws] at hx
        simp only [hset, handlingList_append, List.count_append, List.count_nil,
          handlingList_handling, handlingList_idle, List.map_append,
          List.map_cons, List.map_nil] at hx ⊢
        omega
      | idle => simp [step, hw] at hstep
      | waiting => simp [step, hw] at hstep
      | woken => simp [step, hw] at hstep

/-- Every enabled step keeps the number of worker threads unchanged. -/
lemma step_workers_length (s : SState) (a : SAction) (s1 : SState)
    (hstep : step s a = some s1) : s1.workers.length = s.workers.length := by
  cases a with
  | accept w =>
    cases w with
    | some i =>
      cases hw : s.workers[i]? with
      | none => simp [step, hw] at hstep
      | some st =>
        cases st with
        | waiting =>
          simp [step, hw] at hstep
          subst hstep
          simp
        | idle => simp [step, hw] at hstep
        | woken => simp [step, hw] at hstep
        | handling c => simp [step, hw] at hstep
    | none =>
      by_cases hall : ∀ st ∈ s.workers, st ≠ WStatus.waiting
      · simp [step, hall] at hstep
        obtain ⟨-, hstep⟩ := hstep
        subst hstep
        rfl
      · simp [step, hall] at hstep
  | workerDeq i =>
    cases hw : s.workers[i]? with
    | none => simp [step, hw] at hstep
    | some st =>
      cases st with
      | idle =>
        cases hqu : s.queue with
        | nil =>
          simp [step, hw, hqu] at hstep
          subst hstep
          simp
        | cons c rest =>
          simp [step, hw, hqu] at hstep
          subst hstep
          simp
      | waiting => simp [step, hw] at hstep
      | woken => simp [step, hw] at hstep
      | handling c => simp [step, hw] at hstep
  | workerRedeq i =>
    cases hw : s.workers[i]? with
    | none => simp [step, hw] at hstep
    | some st =>
      cases st with
      | woken =>
        cases hqu : s.queue with
        | nil =>
          simp [step, hw, hqu] at hstep
          subst hstep
          simp
        | cons c rest =>
          simp [step, hw, hqu] at hstep
          subst hstep
          simp
      | idle => simp [step, hw] at hstep
      | waiting => simp [step, hw] at hstep
      | handling c => simp [step, hw] at hstep
  | spurious i =>
    cases hw : s.workers[i]? with
    | none => simp [step, hw] at hstep
    | some st =>
      cases st with
      | waiting =>
        simp [step, hw] at hstep
        subst hstep
        simp
      | idle => simp [step, hw] at hstep
      | woken => simp [step, hw] at hstep
      | handling c => simp [step, hw] at hstep
  | finish i =>
    cases hw : s.workers[i]? with
    | none => simp [step, hw] at hstep
    | some st =>
      cases st with
      | handling c =>
        simp [step, hw] at hstep
        subst hstep
        simp
      | idle => simp [step, hw] at hstep
      | waiting => simp [step, hw] at hstep
      | woken => simp [step, hw] at hstep

/-- A property preserved by every enabled step is preserved by every
enabled run. -/
lemma run_preserve (P : SState → Prop)
    (hP : ∀ s a s1, step s a = some s1 → P s → P s1) :
    ∀ (as : List SAction) (s s1 : SState),
      run s as = some s1 → P s → P s1 := by
  intro as
  induction as with
  | nil =>
    intro s s1 h hp
    simp [run] at h
    subst h
    exact hp
  | cons a t ih =>
    intro s s1 h hp
    cases hstep : step s a with
    | none => simp [run, hstep] at h
    | some s2 =>
      simp [run, hstep] at h
      exact ih s2 s1 h (hP s a s2 hstep hp)

lemma SInv_initState (n : Nat) : SInv (initState n) := by
  refine ⟨by simp [initState], ?_⟩
  intro x
  simp [initState, handlingList_replicate_idle]

/-- From any state with at least one worker there is a schedule, using no
further accepts, that empties the queue and finishes every handler. -/
lemma drain (k : Nat) :
    ∀ s : SState, drainMeasure s ≤ k → 0 < s.workers.length →
    ∃ as s1, run s as = some s1 ∧ s1.queue = [] ∧
      handlingList s1.workers = [] ∧ s1.accepted = s.accepted := by
  induction k with
  | zero =>
    intro s hm hw
    have hlen : s.queue.length = 0 ∧ (handlingList s.workers).length = 0 := by
      simp only [drainMeasure] at hm
      omega
    exact ⟨[], s, rfl, List.length_eq_zero.mp hlen.1,
      List.length_eq_zero.mp hlen.2, rfl⟩
  | succ k ih =>
    intro s hm hw
    by_cases hh : handlingList s.workers = []
    · cases hqu : s.queue with
      | nil => exact ⟨[], s, rfl, hqu, hh, rfl⟩
      | cons c rest =>
        cases hws : s.workers with
        | nil =>
          rw [hws] at hw
          simp at hw
        | cons w0 wrest =>
          have hhw : handlingList wrest = [] := by
            rw [hws] at hh
            cases w0 with
            | handling c0 => simp [handlingList, toHandling] at hh
            | idle => simpa [handlingList, toHandling] using hh
            | waiting => simpa [handlingList, toHandling] using hh
            | woken => simpa [handlingList, toHandling] using hh
          have hhw2 : List.filterMap toHandling wrest = [] := hhw
          have hmq : 2 * (rest.length + 1) ≤ k + 1 := by
            have := hm
            simp [drainMeasure, hqu, hh] at this
            omega
          cases w0 with
          | handling c0 =>
            rw [hws] at hh
            simp [handlingList, toHandling] at hh
          | idle =>
            have hget : s.workers[0]? = some WStatus.idle := by
              rw [hws]
              simp
            have hset : s.workers.set 0 (WStatus.handling c)
                = WStatus.handling c :: wrest := by
              rw [hws]
              rfl
            have hstep : step s (SAction.workerDeq 0) = some { s with
                queue := rest
                workers := WStatus.handling c :: wrest
                deqLog := s.deqLog ++ [c] } := by
              simp [step, hget, hqu, hset]
            have hm2 : drainMeasure { s with
                queue := rest
                workers := WStatus.handling c :: wrest
                deqLog := s.deqLog ++ [c] } ≤ k := by
              simp [drainMeasure, handlingList, toHandling, hhw2]
              omega
            obtain ⟨as, s1, hrun, h1, h2, h3⟩ := ih _ hm2 (by simp)
            refine ⟨SAction.workerDeq 0 :: as, s1, ?_, h1, h2, ?_⟩
            · simp [run, hstep, hrun]
            · simpa using h3
          | woken =>
            have hget : s.workers[0]? = some WStatus.woken := by
              rw [hws]
              simp
            have hset : s.workers.set 0 (WStatus.handling c)
                = WStatus.handling c :: wrest := by
              rw [hws]
              rfl
            have hstep : step s (SAction.workerRedeq 0) = some { s with
                queue := rest
                workers := WStatus.handling c :: wrest
                deqLog := s.deqLog ++ [c] } := by
              simp [step, hget, hqu, hset]
            have hm2 : drainMeasure { s with
                queue := rest
                workers := WStatus.handling c :: wrest
                deqLog := s.deqLog ++ [c] } ≤ k := by
              simp [drainMeasure, handlingList, toHandling, hhw2]
              omega
            obtain ⟨as, s1, hrun, h1, h2, h3⟩ := ih _ hm2 (by simp)
            refine ⟨SAction.workerRedeq 0 :: as, s1, ?_, h1, h2, ?_⟩
            · simp [run, hstep, hrun]
            · simpa using h3
          | waiting =>
            have hget : s.workers[0]? = some WStatus.waiting := by
              rw [hws]
              simp
            have hset : s.workers.set 0 WStatus.woken
                = WStatus.woken :: wrest := by
              rw [hws]
              rfl
            have hstep1 : step s (SAction.spurious 0)
                = some { s with workers := WStatus.woken :: wrest } := by
              simp [step, hget, hset]
            have hstep2 : step { s with workers := WStatus.woken :: wrest }
                (SAction.workerRedeq 0) = some { s with
                queue := rest
                workers := WStatus.handling c :: wrest
                deqLog := s.deqLog ++ [c] } := by
              simp [step, hqu]
            have hm2 : drainMeasure { s with
                queue := rest
                workers := WStatus.handling c :: wrest
                deqLog := s.deqLog ++ [c] } ≤ k := by
              simp [drainMeasure, handlingList, toHandling, hhw2]
              omega
            obtain ⟨as, s1, hrun, h1, h2, h3⟩ := ih _ hm2 (by simp)
            refine ⟨SAction.spurious 0 :: SAction.workerRedeq 0 :: as, s1,
              ?_, h1, h2, ?_⟩
            · simp [run, hstep1, hstep2, hrun]
            · simpa using h3
    · obtain ⟨pre, c0, post, hwse⟩ := exists_handling s.workers hh
      have hget : s.workers[pre.length]? = some (WStatus.handling c0) := by
        rw [hwse]
        exact getElem?_append_cons pre _ post
      have hsetv : s.workers.set pre.length WStatus.idle
          = pre ++ WStatus.idle :: post := by
        rw [hwse]
        exact set_append_cons pre _ post _
      have hstep : step s (SAction.finish pre.length) = some { s with
          workers := pre ++ WStatus.idle :: post
          dispLog := s.dispLog ++ [(pre.length, c0)] } := by
        simp [step, hget, hsetv]
      have hlen1 : (handlingList (pre ++ WStatus.idle :: post)).length + 1
          = (handlingList s.workers).length := by
        rw [hwse]
        simp [handlingList_append, handlingList, toHandling]
        omega
      have hm2 : drainMeasure { s with
          workers := pre ++ WStatus.idle :: post
          dispLog := s.dispLog ++ [(pre.length, c0)] } ≤ k := by
        have := hm
        simp [drainMeasure] at this ⊢
        omega
      have hw2 : 0 < (pre ++ WStatus.idle :: post).length := by
        simp
      obtain ⟨as, s1, hrun, h1, h2, h3⟩ := ih _ hm2 hw2
      refine ⟨SAction.finish pre.length :: as, s1, ?_, h1, h2, ?_⟩
      · simp [run, hstep, hrun]
      · simpa using h3

/-- Claim C1: along any interleaving from the initial state, no
connection is ever handed to a handler twice, and from any reached state
there is a schedule after which the multiset of dispatched connections
is exactly the set of accepted connections: every enqueued connection is
dispatched to exactly one worker exactly once and none stays queued
forever. -/
theorem c1_dispatch_exactly_once (N : Nat) (hN : 0 < N)
    (as : List SAction) (s : SState)
    (hrun : run (initState N) as = some s) :
    (∀ x : Nat, (s.dispLog.map Prod.snd).count x ≤ 1) ∧
    ∃ bs s1, run s bs = some s1 ∧
      (s1.dispLog.map Prod.snd).Perm (List.range s.accepted) := by
  have hinv : SInv s :=
    run_preserve SInv step_SInv as (initState N) s hrun (SInv_initState N)
  have hlen : s.workers.length = N :=
    run_preserve (fun t => t.workers.length = N)
      (fun s2 a s3 h hp => (step_workers_length s2 a s3 h).trans hp)
      as (initState N) s hrun (by simp [initState])
  constructor
  · intro x
    have hpref : s.deqLog <+: List.range s.accepted := ⟨s.queue, hinv.1⟩
    have hnd : s.deqLog.Nodup :=
      (List.nodup_range _).sublist hpref.sublist
    have hd1 : s.deqLog.count x ≤ 1 := List.nodup_iff_count_le_one.mp hnd x
    have h2 := hinv.2 x
    omega
  · obtain ⟨bs, s1, hrun1, hq1, hh1, hacc⟩ :=
      drain (drainMeasure s) s le_rfl (by omega)
    have hinv1 : SInv s1 := run_preserve SInv step_SInv bs s s1 hrun1 hinv
    refine ⟨bs, s1, hrun1, ?_⟩
    rw [List.perm_iff_count]
    intro x
    have h2 := hinv1.2 x
    rw [hh1] at h2
    have h1 := hinv1.1
    rw [hq1, List.append_nil] at h1
    rw [← hacc, ← h1]
    simpa using h2

/-- Claim C1 witness: after one accepted connection with one worker, no
connection is dispatched twice and a completing schedule exists. -/
theorem c1_dispatch_exactly_once_witness :
    (∀ x : Nat,
      ((({ queue := [0], workers := [WStatus.idle], accepted := 1,
           deqLog := [], dispLog := [] } : SState).dispLog.map
            Prod.snd).count x ≤ 1)) ∧
    ∃ bs s1,
      run { queue := [0], workers := [WStatus.idle], accepted := 1,
            deqLog := [], dispLog := [] } bs = some s1 ∧
      (s1.dispLog.map Prod.snd).Perm (List.range
        ({ queue := [0], workers := [WStatus.idle], accepted := 1,
           deqLog := [], dispLog := [] } : SState).accepted) := by
  exact c1_dispatch_exactly_once 1 (by decide) [SAction.accept none]
    { queue := [0], workers := [WStatus.idle], accepted := 1,
      deqLog := [], dispLog := [] } (by decide)

/-- Claim C4 counterexample: with two workers both parked on the
condition variable, two accepted connections can be dequeued in FIFO
order yet handed to their handlers in the opposite order, because each
worker invokes its handler after releasing the mutex. -/
theorem c4_counterexample :
    run (initState 2) [SAction.workerDeq 0, SAction.workerDeq 1,
      SAction.accept (some 0), SAction.accept (some 1),
      SAction.workerRedeq 1, SAction.workerRedeq 0,
      SAction.finish 0, SAction.finish 1]
      = some { queue := [], workers := [WStatus.idle, WStatus.idle],
               accepted := 2, deqLog := [0, 1],
               dispLog := [(0, 1), (1, 0)] } ∧
    ¬ dispatchIsFIFO { queue := [], workers := [WStatus.idle, WStatus.idle],
                       accepted := 2, deqLog := [0, 1],
                       dispLog := [(0, 1), (1, 0)] } := by
  constructor
  · decide
  · intro h
    simp [dispatchIsFIFO] at h

/-- Claim C4 amended: connections are dequeued from the shared queue in
FIFO order relative to acceptance; the order in which handlers are then
invoked is not constrained. -/
theorem c4_dequeue_fifo (N : Nat) (as : List SAction) (s : SState)
    (hrun : run (initState N) as = some s) :
    s.deqLog.Pairwise (· < ·) := by
  have hinv : SInv s :=
    run_preserve SInv step_SInv as (initState N) s hrun (SInv_initState N)
  have hpref : s.deqLog <+: List.range s.accepted := ⟨s.queue, hinv.1⟩
  exact (List.pairwise_lt_range _).sublist hpref.sublist

/-- Claim C4 amended witness: a concrete two-worker interleaving
dequeues in acceptance order. -/
theorem c4_dequeue_fifo_witness :
    ({ queue := [], workers := [WStatus.handling 1, WStatus.handling 0],
       accepted := 2, deqLog := [0, 1],
       dispLog := [] } : SState).deqLog.Pairwise (· < ·) := by
  exact c4_dequeue_fifo 2 [SAction.workerDeq 0, SAction.workerDeq 1,
    SAction.accept (some 0), SAction.accept (some 1),
    SAction.workerRedeq 1, SAction.workerRedeq 0]
    { queue := [], workers := [WStatus.handling 1, WStatus.handling 0],
      accepted := 2, deqLog := [0, 1], dispLog := [] } (by decide)

/-- Claim C9: when the server structure is allocated, initialization
creates exactly thread_pool_size worker threads, and no step of the
running system ever creates or destroys a worker. -/
theorem c9_fixed_worker_pool (port : Nat) (mwc : Int) (tps hdl cx : Nat)
    (env : CreateEnv) :
    (env.allocServerOk = true →
      (stream_server_create port mwc tps hdl cx env).events.count
        Event.threadCreate = tps) ∧
    (∀ (s : SState) (a : SAction) (s1 : SState), step s a = some s1 →
      s1.workers.length = s.workers.length) := by
  constructor
  · intro ha
    rcases create_branches port mwc tps hdl cx env with
      ⟨hf, _⟩ | ⟨_, _, hcr⟩ | ⟨_, _, _, hcr⟩ |
      ⟨_, _, _, _, hcr⟩ | ⟨_, _, _, _, _, hcr⟩ | ⟨_, _, _, _, _, hcr⟩ <;>
      first
        | (rw [ha] at hf; exact absurd hf (by decide))
        | (rw [hcr]; simp [List.count_append, List.count_replicate_self])
  · exact step_workers_length

/-- Claim C9 witness: a concrete create run with pool size 3 makes
exactly 3 thread-create calls. -/
theorem c9_fixed_worker_pool_witness :
    (stream_server_create 80 5 3 0 0
        { allocServerOk := true, socketRet := 3, setsockoptRet := 0,
          bindRet := 0, listenRet := 0 }).events.count
      Event.threadCreate = 3 := by
  exact (c9_fixed_worker_pool 80 5 3 0 0
    { allocServerOk := true, socketRet := 3, setsockoptRet := 0,
      bindRet := 0, listenRet := 0 }).1 rfl
